import Mathlib

/-!
# cbgb: the admin REST handlers (`rest.go`) and the mutation logger (`cbgb.go`)

A shallow embedding of the handlers of `rest.go` and of `mutationLogger` of
`cbgb.go`.  A handler is a function from the request and the state of the
process to an `Outcome`: the state afterwards, what was written to the
`http.ResponseWriter`, and the calls made into the bucket registry, in order.
The registry, the buckets and their partitions are declared in files that are
not part of the sources at hand; they enter as the fields of `Backend`.
-/

namespace Cbgb

/-! ## Machine integers -/

/-- Two's-complement wrap of an integer into `w` bits (`w ≥ 1`). -/
def wrapSigned (w : Nat) (x : Int) : Int :=
  (x + 2 ^ (w - 1)) % 2 ^ w - 2 ^ (w - 1)

/-- The conversion `int64(x)`. -/
def int64 (x : Int) : Int := wrapSigned 64 x

/-- The conversion `int(x)`; `int` is 64 bits wide on the platforms modelled. -/
def int (x : Int) : Int := wrapSigned 64 x

/-- The conversion `uint16(x)`. -/
def uint16 (x : Int) : Nat := (x % 65536).toNat

/-- Membership in the range of `int64` (and of `int`). -/
def inInt64 (x : Int) : Prop := -(2 ^ 63) ≤ x ∧ x < 2 ^ 63

instance (x : Int) : Decidable (inInt64 x) := by
  unfold inInt64; exact inferInstance

/-! ## net/http -/

/-- The parts of `*http.Request` the handlers read: the parsed form, in order,
and the route variables of `mux.Vars`. -/
structure Request where
  form : List (String × String)
  vars : List (String × String)
  deriving DecidableEq, Repr

/-- The first value bound to `key` in an association list, if any. -/
def lookupFirst : List (String × String) → String → Option String
  | [], _ => none
  | (k, v) :: rest, key => if k = key then some v else lookupFirst rest key

/-- `r.FormValue(key)`: the first value of `key`, the empty string when the
form has none. -/
def Request.FormValue (r : Request) (key : String) : String :=
  (lookupFirst r.form key).getD ""

/-- The expression `mux.Vars(r)[key]`: the route variable, the empty string
when the route has none of that name. -/
def Request.Var (r : Request) (key : String) : String :=
  (lookupFirst r.vars key).getD ""

/-! ## regexp -/

/-- The bracket expression of the pattern `^[A-Za-z0-9\-_]+$`, item by item. -/
def bucketNameRanges : List (Char × Char) :=
  [('A', 'Z'), ('a', 'z'), ('0', '9'), ('-', '-'), ('_', '_')]

/-- One character against a bracket expression. -/
def inRanges (ranges : List (Char × Char)) (c : Char) : Bool :=
  ranges.any fun p => decide (p.1.toNat ≤ c.toNat) && decide (c.toNat ≤ p.2.toNat)

/-- A text against `^[...]+$`: anchored at both ends (`$` is the end of the
text, Go's default without the `m` flag), one or more characters of the
bracket expression in between. -/
def matchAnchoredPlus (ranges : List (Char × Char)) (s : String) : Bool :=
  !s.data.isEmpty && s.data.all (inRanges ranges)

/-- `regexp.MatchString("^[A-Za-z0-9\\-_]+$", s)`: the pattern is a constant
that compiles, so the error is always nil. -/
def matchBucketName (s : String) : Bool × Option String :=
  (matchAnchoredPlus bucketNameRanges s, none)

/-- The `%v` rendering of an `error`: its message, `<nil>` for nil. -/
def fmtErr : Option String → String
  | none => "<nil>"
  | some e => e

/-! ## strconv -/

/-- The value of a decimal digit. -/
def digitVal (c : Char) : Option Nat :=
  if '0'.toNat ≤ c.toNat ∧ c.toNat ≤ '9'.toNat then some (c.toNat - '0'.toNat) else none

/-- The value of a run of decimal digits read after the value `acc`. -/
def parseDigits : List Char → Nat → Option Nat
  | [], acc => some acc
  | c :: cs, acc =>
    match digitVal c with
    | some d => parseDigits cs (10 * acc + d)
    | none => none

/-- `strconv.ParseInt(s, 10, 64)`, `none` for an error: an optional sign and
at least one decimal digit, the value within `int64`. -/
def parseInt64 (s : String) : Option Int :=
  match s.data with
  | [] => none
  | '-' :: ds =>
    if ds.isEmpty then none else
    match parseDigits ds 0 with
    | some n => if n ≤ 2 ^ 63 then some (-(n : Int)) else none
    | none => none
  | '+' :: ds =>
    if ds.isEmpty then none else
    match parseDigits ds 0 with
    | some n => if n < 2 ^ 63 then some (n : Int) else none
    | none => none
  | ds =>
    match parseDigits ds 0 with
    | some n => if n < 2 ^ 63 then some (n : Int) else none
    | none => none

/-- Decimal digits of a natural number, most significant first, after `acc`. -/
def itoaDigits : Nat → Nat → List Char → List Char
  | 0, _, acc => acc
  | fuel + 1, n, acc =>
    let acc1 := Char.ofNat ('0'.toNat + n % 10) :: acc
    if n / 10 = 0 then acc1 else itoaDigits fuel (n / 10) acc1

/-- `strconv.Itoa` on a non-negative value. -/
def itoa (n : Nat) : String := ⟨itoaDigits (n + 1) n []⟩

/-! ## Bucket settings -/

/-- Modelled from the spec: the declaration of `BucketSettings` is not among
the sources; the spec gives it quotaBytes, a memoryOnly level, passwordHash
and numPartitions, and the handlers name the fields as below. -/
structure BucketSettings where
  PasswordHash : String
  QuotaBytes : Int
  MemoryOnly : Int
  NumPartitions : Int
  deriving DecidableEq, Repr

/-- Modelled from the spec: `SafeView` is not among the sources; the redacted
view "omits passwordHash for external exposure". -/
structure SafeSettings where
  QuotaBytes : Int
  MemoryOnly : Int
  NumPartitions : Int
  deriving DecidableEq, Repr

/-- Modelled from the spec: `settings.SafeView()`, every field but the
password hash. -/
def BucketSettings.SafeView (s : BucketSettings) : SafeSettings :=
  { QuotaBytes := s.QuotaBytes, MemoryOnly := s.MemoryOnly, NumPartitions := s.NumPartitions }

/-- The store of `BucketSettings` values behind `*BucketSettings` pointers; a
pointer is an index. -/
abbrev Heap := List BucketSettings

/-- The zero value of `BucketSettings`. -/
def zeroSettings : BucketSettings :=
  { PasswordHash := "", QuotaBytes := 0, MemoryOnly := 0, NumPartitions := 0 }

/-- Reading through a pointer. -/
def load (h : Heap) (p : Nat) : BucketSettings := h.getD p zeroSettings

/-- Assigning to a field through a pointer. -/
def store (h : Heap) (p : Nat) (f : BucketSettings → BucketSettings) : Heap :=
  h.set p (f (load h p))

/-- Modelled from the spec: `Copy` is not among the sources; settings are
"copied (not shared)", so the result points at a newly allocated value equal
to the receiver. -/
def Copy (h : Heap) (p : Nat) : Nat × Heap := (h.length, h ++ [load h p])

/-- Modelled from the spec: `getIntValue` is not among the sources; the request
may "override" a setting, so the result is the integer the request supplies
under `name` when it supplies one and `def` otherwise. -/
def getIntValue (r : Request) (name : String) (dflt : Int) : Int :=
  match parseInt64 (r.FormValue name) with
  | some v => v
  | none => dflt

/-! ## time -/

/-- The constant `time.Millisecond`, in nanoseconds. -/
def Millisecond : Int := 1000000

/-- The constant `time.Second`, in nanoseconds. -/
def Second : Int := 1000 * Millisecond

/-- The largest `time.Duration`. -/
def maxDuration : Int := 2 ^ 63 - 1

/-- The smallest `time.Duration`. -/
def minDuration : Int := -(2 ^ 63)

/-- `time.Since(t)` at the instant `now`, instants counted in nanoseconds:
the difference, held at the largest or smallest `Duration` when it does not
fit. -/
def since (now t : Int) : Int :=
  if now - t > maxDuration then maxDuration
  else if now - t < minDuration then minDuration
  else now - t

/-! ## Partitions -/

/-- Modelled from the spec: the partition states; `vbActive` of the source is
`active`. -/
inductive VBState
  | dead
  | active
  | replica
  | pending
  deriving DecidableEq, Repr

/-- Modelled from the spec: the declaration of the partition metadata is not
among the sources; the handlers read its `Id` only, the other fields are kept
as one uninterpreted value. -/
structure VBMeta where
  Id : Nat
  Rest : String
  deriving DecidableEq, Repr

/-- The Go map `map[string]interface{}` that `restGetBucket` fills: at most
one entry for a key. -/
abbrev PartMap := List (String × VBMeta)

/-- The assignment `m[k] = v`: replaces the entry of `k`, adds one when there
is none. -/
def mapSet : PartMap → String → VBMeta → PartMap
  | [], k, v => [(k, v)]
  | (k1, v1) :: rest, k, v =>
    if k1 = k then (k, v) :: rest else (k1, v1) :: mapSet rest k v

/-- The read `m[k]`. -/
def mapGet : PartMap → String → Option VBMeta
  | [], _ => none
  | (k1, v1) :: rest, k => if k1 = k then some v1 else mapGet rest k

/-! ## The process around the handlers -/

/-- The registry `buckets`, the `Bucket` interface and the clock, none of
them among the sources: `W` is the state of the process, `B` a bucket, `V` a
partition, `S` a stats snapshot.  An operation that can fail returns its
error (`none` for nil) with the state it leaves.  Modelled from the spec where
the sources do not show a signature: `close` reports a flush failure to its
caller, and looking a bucket or a partition up reads the state only. -/
structure Backend (W B V S : Type) where
  get : W → String → Option B
  unknownBucketText : String → String
  createBucket : String → BucketSettings → W → Option String × W
  close : String → Bool → W → Option String × W
  compact : B → W → Option String × W
  flush : B → W → Option String × W
  getBucketSettings : B → W → BucketSettings
  getVBucket : B → Nat → W → Option V
  getDDocVBucket : B → W → Option V
  vbMeta : V → W → Option VBMeta
  getItemBytes : B → W → Int
  snapshotStats : B → W → S
  latestUpdateTime : S → Int
  toMap : S → List (String × String)
  startStats : B → Int → W → W
  now : W → Int
  sleep : Int → W → W

/-- The value `restGetBucket` encodes. -/
structure BucketDetail where
  name : String
  itemBytes : Int
  settings : SafeSettings
  partitions : PartMap
  deriving DecidableEq, Repr

/-- One write to the `http.ResponseWriter`. -/
inductive Written
  | httpError (msg : String) (code : Nat)
  | httpRedirect (url : String) (code : Nat)
  | jsonBucket (v : BucketDetail)
  | jsonStats (m : List (String × String))
  deriving DecidableEq, Repr

/-- One call from a handler into the process around it. -/
inductive Call (B : Type)
  | createBucket (name : String) (settings : BucketSettings)
  | close (name : String) (flush : Bool)
  | compact (b : B)
  | flush (b : B)
  | snapshotStats (b : B)
  | startStats (b : B) (interval : Int)
  | sleep (d : Int)
  deriving DecidableEq, Repr

/-- What running a handler leaves: the state of the process, the writes to
the response, the calls made, both in order. -/
structure Outcome (W B : Type) where
  world : W
  written : List Written
  calls : List (Call B)

/-- The status of the response: the code of the first write that sets one,
200 otherwise. -/
def Outcome.status {W B : Type} (o : Outcome W B) : Nat :=
  match o.written with
  | .httpError _ code :: _ => code
  | .httpRedirect _ code :: _ => code
  | _ => 200

/-- Modelled from the spec: `parseBucketName` is not among the sources; the
routes name the bucket in `bucketName`, and an unknown name is answered with
404.  Returns the name, the bucket (`none` for nil) and what was written. -/
def parseBucketName {W B V S : Type} (be : Backend W B V S) (r : Request) (w : W) :
    String × Option B × List Written :=
  let bucketName := r.Var "bucketName"
  match be.get w bucketName with
  | none => (bucketName, none, [.httpError (be.unknownBucketText bucketName) 404])
  | some b => (bucketName, some b, [])

/-! ## rest.go -/

/-- The settings of the new bucket, the middle of `restPostBucket`
(`bSettings := bucketSettings.Copy()` to the assignment of `MemoryOnly`):
the pointer `bSettings` and the store after the assignments. -/
def newBucketSettings (bucketSettings : Nat) (r : Request) (h : Heap) : Nat × Heap :=
  let (bSettings, h1) := Copy h bucketSettings
  let bucketPassword := r.FormValue "password"
  let h2 := if bucketPassword ≠ "" then
      store h1 bSettings (fun s => { s with PasswordHash := bucketPassword })
    else h1
  let quotaBytes := getIntValue r "quotaBytes" (load h2 bucketSettings).QuotaBytes
  let h3 := store h2 bSettings (fun s => { s with QuotaBytes := quotaBytes })
  let memoryOnly :=
    int (getIntValue r "memoryOnly" (int64 (load h3 bucketSettings).MemoryOnly))
  let h4 := store h3 bSettings (fun s => { s with MemoryOnly := memoryOnly })
  (bSettings, h4)

/-- The handler `restPostBucket`; `bucketSettings` is the global pointer to the
process-default settings, `h` the store it points into. -/
def restPostBucket {W B V S : Type} (be : Backend W B V S) (bucketSettings : Nat)
    (r : Request) (h : Heap) (w : W) : Outcome W B × Heap :=
  let bucketName := r.FormValue "name"
  if bucketName.utf8ByteSize < 1 then
    (⟨w, [.httpError "bucket name is too short or is missing" 400], []⟩, h)
  else
    let (matched, err) := matchBucketName bucketName
    if err ≠ none ∨ matched = false then
      (⟨w, [.httpError ("illegal bucket name: " ++ bucketName ++ ", err: " ++ fmtErr err) 400],
        []⟩, h)
    else
      let (bSettings, h4) := newBucketSettings bucketSettings r h
      match be.createBucket bucketName (load h4 bSettings) w with
      | (some err, w1) =>
        (⟨w1, [.httpError ("create bucket error; name: " ++ bucketName ++ ", err: " ++ err) 500],
          [.createBucket bucketName (load h4 bSettings)]⟩, h4)
      | (none, w1) =>
        (⟨w1, [.httpRedirect ("/_api/buckets/" ++ bucketName) 303],
          [.createBucket bucketName (load h4 bSettings)]⟩, h4)

/-- One pass of the body of the partition loop of `restGetBucket`. -/
def scanOne {W B V S : Type} (be : Backend W B V S) (bucket : B) (w : W) (vbid : Nat)
    (partitions : PartMap) : PartMap :=
  match be.getVBucket bucket vbid w with
  | some vb =>
    match be.vbMeta vb w with
    | some vbm => mapSet partitions (itoa vbm.Id) vbm
    | none => partitions
  | none => partitions

/-- The loop `for vbid := uint16(0); vbid < bound; vbid++` of `restGetBucket`
from the counter value `vbid` on, the counter wrapping at 16 bits; `none` when
`fuel` passes do not finish it. -/
def scanLoop {W B V S : Type} (be : Backend W B V S) (bucket : B) (w : W) (bound : Nat) :
    Nat → Nat → PartMap → Option PartMap
  | 0, _, _ => none
  | fuel + 1, vbid, partitions =>
    if vbid < bound then
      scanLoop be bucket w bound fuel ((vbid + 1) % 65536) (scanOne be bucket w vbid partitions)
    else some partitions

/-- The handler `restGetBucket`; `none` when the partition loop does not end
within 65537 passes, one more than a 16-bit counter has values. -/
def restGetBucket {W B V S : Type} (be : Backend W B V S) (r : Request) (w : W) :
    Option (Outcome W B) :=
  match parseBucketName be r w with
  | (_, none, wr) => some ⟨w, wr, []⟩
  | (bucketName, some bucket, _) =>
    let settings := be.getBucketSettings bucket w
    match scanLoop be bucket w (uint16 settings.NumPartitions) 65537 0 [] with
    | none => none
    | some partitions =>
      let partitions1 :=
        match be.getDDocVBucket bucket w with
        | some vb =>
          match be.vbMeta vb w with
          | some vbm => mapSet partitions (itoa vbm.Id) vbm
          | none => partitions
        | none => partitions
      some ⟨w, [.jsonBucket
        { name := bucketName, itemBytes := be.getItemBytes bucket w,
          settings := settings.SafeView, partitions := partitions1 }], []⟩

/-- The handler `restDeleteBucket`: whatever `buckets.Close` returns is
dropped. -/
def restDeleteBucket {W B V S : Type} (be : Backend W B V S) (r : Request) (w : W) :
    Outcome W B :=
  match parseBucketName be r w with
  | (_, none, wr) => ⟨w, wr, []⟩
  | (bucketName, some _, _) =>
    ⟨(be.close bucketName true w).2, [], [.close bucketName true]⟩

/-- The handler `restPostBucketCompact`. -/
def restPostBucketCompact {W B V S : Type} (be : Backend W B V S) (r : Request) (w : W) :
    Outcome W B :=
  match parseBucketName be r w with
  | (_, none, wr) => ⟨w, wr, []⟩
  | (bucketName, some bucket, _) =>
    match be.compact bucket w with
    | (some err, w1) =>
      ⟨w1, [.httpError ("error compacting bucket: " ++ bucketName ++ ", err: " ++ err) 500],
        [.compact bucket]⟩
    | (none, w1) => ⟨w1, [], [.compact bucket]⟩

/-- The handler `restPostBucketFlushDirty`. -/
def restPostBucketFlushDirty {W B V S : Type} (be : Backend W B V S) (r : Request) (w : W) :
    Outcome W B :=
  match parseBucketName be r w with
  | (_, none, wr) => ⟨w, wr, []⟩
  | (bucketName, some bucket, _) =>
    match be.flush bucket w with
    | (some err, w1) =>
      ⟨w1, [.httpError ("error flushing bucket: " ++ bucketName ++ ", err: " ++ err) 500],
        [.flush bucket]⟩
    | (none, w1) => ⟨w1, [], [.flush bucket]⟩

/-- The handler `restGetBucketStats`. -/
def restGetBucketStats {W B V S : Type} (be : Backend W B V S) (r : Request) (w : W) :
    Outcome W B :=
  match parseBucketName be r w with
  | (_, none, wr) => ⟨w, wr, []⟩
  | (_, some bucket, _) =>
    let st := be.snapshotStats bucket w
    if since (be.now w) (be.latestUpdateTime st) > Second * 30 then
      let w1 := be.startStats bucket Second w
      let w2 := be.sleep (Millisecond * 2100) w1
      let st1 := be.snapshotStats bucket w2
      ⟨w2, [.jsonStats (be.toMap st1)],
        [.snapshotStats bucket, .startStats bucket Second, .sleep (Millisecond * 2100),
          .snapshotStats bucket]⟩
    else
      ⟨w, [.jsonStats (be.toMap st)], [.snapshotStats bucket]⟩

/-! ## cbgb.go -/

/-- Modelled from the spec: the declaration of `mutation` is not among the
sources; an event carrying a payload. -/
structure mutation where
  payload : String
  deriving DecidableEq, Repr

/-- Modelled from the spec: the declaration of `bucketChange` is not among the
sources; the bucket, the partition and its old and new state. -/
structure bucketChange where
  bucket : String
  vbid : Nat
  oldState : VBState
  newState : VBState
  deriving DecidableEq, Repr

/-- A value received from a `chan interface{}`, by dynamic type: a `mutation`,
a `bucketChange`, or a value of any other type, kept as the name of its type
and its `%v` rendering. -/
inductive Item
  | mutation (o : Cbgb.mutation)
  | bucketChange (o : Cbgb.bucketChange)
  | other (typeName : String) (text : String)
  deriving DecidableEq, Repr

/-- The partitions and their hubs as the logger sees them, none of them among
the sources: `getVBucket` is `o.getVBucket()` (`none` for nil), `observer` the
field `vb.observer`, `register` the call `Register(ch)` on a hub; `W` is the
state of the process, `V` a partition, `H` a hub.  A channel is named by a
number. -/
structure Hubs (W V H : Type) where
  getVBucket : bucketChange → W → Option V
  observer : V → H
  register : H → Nat → W → W

/-- What the logger does besides reading its channel. -/
inductive LogEffect (H : Type)
  | printf (format : String) (arg : Item)
  | register (hub : H) (ch : Nat)
  deriving DecidableEq, Repr

/-- How a run of the logger ends: its channel is closed and drained, or it
panics with a message. -/
inductive Exit
  | closed
  | panic (msg : String)
  deriving DecidableEq, Repr

/-- A run of the logger: the state it leaves, what it did, in order, and how
it ended. -/
structure LoggerRun (W H : Type) where
  world : W
  effects : List (LogEffect H)
  exit : Exit

/-- The body of the loop of `mutationLogger` on one received item: the state
and the effects, or the message of the panic. -/
def mutationLoggerBody {W V H : Type} (env : Hubs W V H) (ch : Nat) (i : Item) (w : W) :
    Except String (W × List (LogEffect H)) :=
  match i with
  | .mutation _ => .ok (w, [.printf "Mutation: %v" i])
  | .bucketChange o =>
    if o.newState = VBState.active then
      match env.getVBucket o w with
      | some vb =>
        .ok (env.register (env.observer vb) ch w,
          [.printf "Bucket change: %v" i, .register (env.observer vb) ch])
      | none => .ok (w, [.printf "Bucket change: %v" i])
    else .ok (w, [.printf "Bucket change: %v" i])
  | .other typeName text => .error ("Unhandled item to log " ++ typeName ++ ": " ++ text)

/-- The function `mutationLogger` on the items its channel delivers, in order,
before it is closed: the loop `for i := range ch`. -/
def mutationLogger {W V H : Type} (env : Hubs W V H) (ch : Nat) :
    List Item → W → LoggerRun W H
  | [], w => ⟨w, [], .closed⟩
  | i :: rest, w =>
    match mutationLoggerBody env ch i w with
    | .error msg => ⟨w, [], .panic msg⟩
    | .ok (w1, effects) =>
      let run := mutationLogger env ch rest w1
      ⟨run.world, effects ++ run.effects, run.exit⟩

/-! ## A small process to run the handlers on -/

/-- A process state for the examples: the open buckets, the clock, the time
of the latest stats update and the interval of the sampler when it runs. -/
structure SampleWorld where
  names : List String
  clock : Int
  latest : Int
  sampler : Option Int
  deriving DecidableEq, Repr

/-- A backend for the examples.  A bucket is its name and a partition its id;
creating a name twice fails; closing, compacting and flushing the bucket
`stuck` fail; every bucket has the partitions 0 and 2 out of 4 and a
design-document partition with the id 65535. -/
def sampleBackend : Backend SampleWorld String Nat Int where
  get := fun w name => if name ∈ w.names then some name else none
  unknownBucketText := fun name => "no bucket with the name: " ++ name
  createBucket := fun name _ w =>
    if name ∈ w.names then (some "bucket already exists", w)
    else (none, { w with names := w.names ++ [name] })
  close := fun name _ w =>
    (if name = "stuck" then some "flush failed: disk full" else none,
      { w with names := w.names.erase name })
  compact := fun b w => (if b = "stuck" then some "compaction failed" else none, w)
  flush := fun b w => (if b = "stuck" then some "write failed" else none, w)
  getBucketSettings := fun _ _ =>
    { PasswordHash := "secret", QuotaBytes := 1000000, MemoryOnly := 0, NumPartitions := 4 }
  getVBucket := fun _ vbid _ => if vbid = 0 ∨ vbid = 2 then some vbid else none
  getDDocVBucket := fun _ _ => some 65535
  vbMeta := fun v _ => some { Id := v, Rest := "" }
  getItemBytes := fun _ _ => 0
  snapshotStats := fun _ w => w.latest
  latestUpdateTime := fun st => st
  toMap := fun st => [("latestUpdateTime", itoa st.toNat)]
  startStats := fun _ interval w =>
    if w.sampler.isSome then w else { w with sampler := some interval }
  now := fun w => w.clock
  sleep := fun d w =>
    { w with clock := w.clock + d, latest := if w.sampler.isSome then w.clock + d else w.latest }

/-- A state of the sample process: two buckets, the stats 40 seconds old. -/
def sampleWorld : SampleWorld :=
  { names := ["default", "stuck"], clock := 100 * Second, latest := 60 * Second, sampler := none }

/-- The store of the examples: the process-default settings at address 0. -/
def sampleHeap : Heap :=
  [{ PasswordHash := "", QuotaBytes := 0, MemoryOnly := 0, NumPartitions := 1024 }]

/-- Hubs for the examples: the state is the list of registrations made, a
partition and its hub are named by the partition id, and the partitions 0 to 3
exist. -/
def sampleHubs : Hubs (List (Nat × Nat)) Nat Nat where
  getVBucket := fun o _ => if o.vbid < 4 then some o.vbid else none
  observer := fun vb => vb
  register := fun hub ch w => w ++ [(hub, ch)]

/-- The error of an operation of the examples that fails on the bucket `stuck`
with the message `msg`. -/
def failsOnStuck (msg : String) (b : String) : Option String :=
  if b = "stuck" then some msg else none

/-- A backend for the examples whose state is the journal of the operations
done: the buckets `default` and `stuck` are open, compacting and flushing
enter the bucket in the journal, and on `stuck` they fail as well. -/
def journalBackend : Backend (List String) String Nat Int where
  get := fun _ name => if name ∈ ["default", "stuck"] then some name else none
  unknownBucketText := fun name => "no bucket with the name: " ++ name
  createBucket := fun name _ w => (none, w ++ ["create " ++ name])
  close := fun name _ w => (none, w ++ ["close " ++ name])
  compact := fun b w => (failsOnStuck "compaction failed" b, w ++ ["compact " ++ b])
  flush := fun b w => (failsOnStuck "write failed" b, w ++ ["flush " ++ b])
  getBucketSettings := fun _ _ => zeroSettings
  getVBucket := fun _ _ _ => none
  getDDocVBucket := fun _ _ => none
  vbMeta := fun _ _ => none
  getItemBytes := fun _ _ => 0
  snapshotStats := fun _ _ => 0
  latestUpdateTime := fun st => st
  toMap := fun _ => []
  startStats := fun _ _ w => w
  now := fun _ => 0
  sleep := fun _ w => w

/-- The sample backend with a design-document partition whose metadata has
the id 0, the id of the metadata of the partition 0. -/
def collidingBackend : Backend SampleWorld String Nat Int :=
  { sampleBackend with
    vbMeta := fun v _ =>
      if v = 65535 then some { Id := 0, Rest := "ddoc" } else some { Id := v, Rest := "" } }

/-! ## The properties, in the words of the specification -/

/-- The characters a bucket name may be made of: `A-Z`, `a-z`, `0-9`, `_` and
`-`, written out. -/
def allowedChars : List Char :=
  ['A', 'B', 'C', 'D', 'E', 'F', 'G', 'H', 'I', 'J', 'K', 'L', 'M', 'N', 'O', 'P', 'Q', 'R', 'S',
   'T', 'U', 'V', 'W', 'X', 'Y', 'Z',
   'a', 'b', 'c', 'd', 'e', 'f', 'g', 'h', 'i', 'j', 'k', 'l', 'm', 'n', 'o', 'p', 'q', 'r', 's',
   't', 'u', 'v', 'w', 'x', 'y', 'z',
   '0', '1', '2', '3', '4', '5', '6', '7', '8', '9', '_', '-']

/-- A valid bucket name: not empty and made of allowed characters only. -/
def validName (s : String) : Prop := s ≠ "" ∧ ∀ c ∈ s.data, c ∈ allowedChars

instance (s : String) : Decidable (validName s) := by
  unfold validName; exact inferInstance

/-- The text `part` occurs in the text `body`. -/
def occursIn (part body : String) : Prop := part.data <:+: body.data

/-- The `Register` calls among the effects of the logger, as hub and
channel. -/
def registerCalls {H : Type} : List (LogEffect H) → List (H × Nat)
  | [] => []
  | .register hub ch :: rest => (hub, ch) :: registerCalls rest
  | .printf _ _ :: rest => registerCalls rest

/-- An item of one of the two event types the logger knows. -/
def Item.known : Item → Bool
  | .mutation _ => true
  | .bucketChange _ => true
  | .other _ _ => false

/-- The metadata of a partition by id, when the partition exists and has
metadata. -/
def metaOf {W B V S : Type} (be : Backend W B V S) (bucket : B) (w : W) (vbid : Nat) :
    Option VBMeta :=
  (be.getVBucket bucket vbid w).bind (be.vbMeta · w)

/-- The metadata of the partitions a bucket detail reports, in the order of
the scan: of each id below `n` whose partition exists and has metadata, then
of the design-document partition when it exists and has metadata. -/
def reportedMetas {W B V S : Type} (be : Backend W B V S) (bucket : B) (w : W) (n : Nat) :
    List VBMeta :=
  (List.range n).filterMap (metaOf be bucket w)
    ++ ((be.getDDocVBucket bucket w).bind (be.vbMeta · w)).toList

/-- The map that holds, under the decimal string of its id, each metadata of
a list, entered in order. -/
def mapOfMetas (ms : List VBMeta) : PartMap :=
  ms.foldl (fun m vbm => mapSet m (itoa vbm.Id) vbm) []

/-- The metadata of a list that is entered last under the key `k`, if any. -/
def lastUnder (ms : List VBMeta) (k : String) : Option VBMeta :=
  ms.reverse.find? (fun m => decide (itoa m.Id = k))

/-- The number of different ids among the metadata of a list. -/
def distinctIds (ms : List VBMeta) : Nat := (ms.map VBMeta.Id).toFinset.card

/-- The error `createBucket` returns for the request, `none` for nil. -/
def createError {W B V S : Type} (be : Backend W B V S) (p : Nat) (r : Request) (h : Heap)
    (w : W) : Option String :=
  (be.createBucket (r.FormValue "name")
    (load (newBucketSettings p r h).2 (newBucketSettings p r h).1) w).1

/-- The settings the request asks for over the defaults `d`. -/
def postedSettings (r : Request) (d : BucketSettings) : BucketSettings :=
  { PasswordHash := if r.FormValue "password" ≠ "" then r.FormValue "password" else d.PasswordHash
    QuotaBytes := getIntValue r "quotaBytes" d.QuotaBytes
    MemoryOnly := int (getIntValue r "memoryOnly" (int64 d.MemoryOnly))
    NumPartitions := d.NumPartitions }

/-! # Theorems -/

/-! ## Lemmas: bucket names and settings -/

set_option maxRecDepth 100000 in
theorem inRanges_ascii :
    ∀ n, n < 128 →
      inRanges bucketNameRanges (Char.ofNat n) = decide (Char.ofNat n ∈ allowedChars) := by
  decide

theorem allowedChars_ascii : ∀ d ∈ allowedChars, d.toNat < 128 := by decide

theorem inRanges_iff_allowed (c : Char) :
    inRanges bucketNameRanges c = true ↔ c ∈ allowedChars := by
  by_cases hc : c.toNat < 128
  · have h := inRanges_ascii c.toNat hc
    rw [Char.ofNat_toNat] at h
    rw [h]; simp
  · constructor
    · intro h
      simp [inRanges, bucketNameRanges] at h
      have e1 : 'Z'.toNat = 90 := by decide
      have e2 : 'z'.toNat = 122 := by decide
      have e3 : '9'.toNat = 57 := by decide
      have e4 : '-'.toNat = 45 := by decide
      have e5 : '_'.toNat = 95 := by decide
      omega
    · intro h
      exact absurd (allowedChars_ascii c h) hc

theorem utf8ByteSize_lt_one (s : String) : s.utf8ByteSize < 1 ↔ s = "" := by
  obtain ⟨l⟩ := s
  cases l with
  | nil => simp [String.utf8ByteSize, String.utf8ByteSize.go]
  | cons c cs =>
    have hc := c.utf8Size_pos
    simp [String.utf8ByteSize, String.utf8ByteSize.go, String.ext_iff]
    omega

theorem matchBucketName_iff (s : String) : (matchBucketName s).1 = true ↔ validName s := by
  obtain ⟨l⟩ := s
  simp [matchBucketName, matchAnchoredPlus, validName, inRanges_iff_allowed, String.ext_iff]

/-- What `restPostBucket` does with a name that fails validation. -/
theorem restPostBucket_of_invalid {W B V S : Type} (be : Backend W B V S) (p : Nat)
    (r : Request) (h : Heap) (w : W) (hn : ¬ validName (r.FormValue "name")) :
    ∃ msg, restPostBucket be p r h w = (⟨w, [.httpError msg 400], []⟩, h) := by
  unfold restPostBucket
  by_cases he : (r.FormValue "name").utf8ByteSize < 1
  · exact ⟨"bucket name is too short or is missing", by simp [he]⟩
  · have hm : (matchBucketName (r.FormValue "name")).1 = false := by
      cases hb : (matchBucketName (r.FormValue "name")).1 with
      | false => rfl
      | true => exact absurd ((matchBucketName_iff _).1 hb) hn
    refine ⟨"illegal bucket name: " ++ r.FormValue "name" ++ ", err: " ++ fmtErr none, ?_⟩
    simp only [he, if_false]
    rw [show matchBucketName (r.FormValue "name") = (false, none) from by rw [← hm]; rfl]
    simp

/-- What `restPostBucket` does with a valid name. -/
theorem restPostBucket_of_valid {W B V S : Type} (be : Backend W B V S) (p : Nat)
    (r : Request) (h : Heap) (w : W) (hn : validName (r.FormValue "name")) :
    restPostBucket be p r h w =
      (⟨(be.createBucket (r.FormValue "name")
            (load (newBucketSettings p r h).2 (newBucketSettings p r h).1) w).2,
        [match createError be p r h w with
          | some e => .httpError
              ("create bucket error; name: " ++ r.FormValue "name" ++ ", err: " ++ e) 500
          | none => .httpRedirect ("/_api/buckets/" ++ r.FormValue "name") 303],
        [.createBucket (r.FormValue "name")
          (load (newBucketSettings p r h).2 (newBucketSettings p r h).1)]⟩,
       (newBucketSettings p r h).2) := by
  have he : ¬ (r.FormValue "name").utf8ByteSize < 1 := by
    rw [utf8ByteSize_lt_one]; exact hn.1
  have hm : (matchBucketName (r.FormValue "name")).1 = true := (matchBucketName_iff _).2 hn
  unfold restPostBucket createError
  simp only [he, if_false]
  rw [show matchBucketName (r.FormValue "name") = (true, none) from by rw [← hm]; rfl]
  simp only [ne_eq, not_true_eq_false, Bool.true_eq_false, or_self, if_false]
  rcases hc : be.createBucket (r.FormValue "name")
    (load (newBucketSettings p r h).2 (newBucketSettings p r h).1) w with ⟨e, w1⟩
  cases e <;> simp [hc]

theorem load_append_left (h : Heap) (x : BucketSettings) (p : Nat) (hp : p < h.length) :
    load (h ++ [x]) p = load h p := by
  simp [load, List.getD, List.getElem?_append_left hp]

theorem load_append_new (h : Heap) (x : BucketSettings) :
    load (h ++ [x]) h.length = x := by
  simp [load, List.getD]

theorem store_append_new (h : Heap) (x : BucketSettings) (f : BucketSettings → BucketSettings) :
    store (h ++ [x]) h.length f = h ++ [f x] := by
  simp [store, load_append_new]

/-- The copy is a new value: the assignments of `restPostBucket` leave the
store as it was and add the settings of the new bucket at its end. -/
theorem newBucketSettings_eq (p : Nat) (r : Request) (h : Heap) (hp : p < h.length) :
    newBucketSettings p r h = (h.length, h ++ [postedSettings r (load h p)]) := by
  unfold newBucketSettings
  simp only [Copy]
  by_cases hpw : r.FormValue "password" = ""
  · simp [hpw, store_append_new, load_append_left, hp, postedSettings]
  · simp [hpw, store_append_new, load_append_left, hp, postedSettings]

theorem wrapSigned_of_inInt64 (x : Int) (hx : inInt64 x) : wrapSigned 64 x = x := by
  unfold inInt64 at hx
  unfold wrapSigned
  norm_num at hx ⊢
  omega

theorem parseInt64_inInt64 (s : String) (v : Int) (hv : parseInt64 s = some v) : inInt64 v := by
  unfold parseInt64 at hv
  unfold inInt64
  split at hv
  · simp at hv
  · split at hv
    · simp at hv
    · split at hv
      · split at hv
        · simp at hv; norm_num at *; omega
        · simp at hv
      · simp at hv
  · split at hv
    · simp at hv
    · split at hv
      · split at hv
        · simp at hv; norm_num at *; omega
        · simp at hv
      · simp at hv
  · split at hv
    · split at hv
      · simp at hv; norm_num at *; omega
      · simp at hv
    · simp at hv

theorem occursIn_middle (a n b : String) : occursIn n (a ++ n ++ b) := by
  unfold occursIn
  exact ⟨a.data, b.data, by simp⟩

theorem occursIn_end (a e : String) : occursIn e (a ++ e) := by
  unfold occursIn
  exact ⟨a.data, [], by simp⟩

/-- C1: a request whose `name` is empty or has a character outside `A-Z`,
`a-z`, `0-9`, `_`, `-` is answered with status 400, `createBucket` is not
called and the state of the process and the default settings stay as they
were; a name that is not empty and made of those characters only reaches
`createBucket`. -/
theorem restPostBucket_validates_name {W B V S : Type} (be : Backend W B V S) (p : Nat)
    (r : Request) (h : Heap) (w : W) :
    (¬ validName (r.FormValue "name") →
      (restPostBucket be p r h w).1.status = 400 ∧
      (∃ msg, (restPostBucket be p r h w).1.written = [.httpError msg 400]) ∧
      (restPostBucket be p r h w).1.calls = [] ∧
      (restPostBucket be p r h w).1.world = w ∧
      (restPostBucket be p r h w).2 = h) ∧
    (validName (r.FormValue "name") →
      ∃ settings, (restPostBucket be p r h w).1.calls =
        [.createBucket (r.FormValue "name") settings]) := by
  constructor
  · intro hn
    obtain ⟨msg, hmsg⟩ := restPostBucket_of_invalid be p r h w hn
    simp [hmsg, Outcome.status]
  · intro hn
    exact ⟨_, by rw [restPostBucket_of_valid be p r h w hn]⟩

/-- C1 at `My Bucket!` (rejected) and at `my-bucket_1` (passed on). -/
theorem restPostBucket_validates_name_witness :
    ¬ validName "My Bucket!" ∧
    (restPostBucket sampleBackend 0 ⟨[("name", "My Bucket!")], []⟩ sampleHeap
      sampleWorld).1.status = 400 ∧
    (restPostBucket sampleBackend 0 ⟨[("name", "My Bucket!")], []⟩ sampleHeap
      sampleWorld).1.calls = [] ∧
    (restPostBucket sampleBackend 0 ⟨[("name", "My Bucket!")], []⟩ sampleHeap
      sampleWorld).1.world = sampleWorld ∧
    validName "my-bucket_1" ∧
    ∃ settings, (restPostBucket sampleBackend 0 ⟨[("name", "my-bucket_1")], []⟩ sampleHeap
      sampleWorld).1.calls = [.createBucket "my-bucket_1" settings] :=
  have hbad := (restPostBucket_validates_name sampleBackend 0 ⟨[("name", "My Bucket!")], []⟩
    sampleHeap sampleWorld).1 (by decide)
  ⟨by decide, hbad.1, hbad.2.2.1, hbad.2.2.2.1, by decide,
    (restPostBucket_validates_name sampleBackend 0 ⟨[("name", "my-bucket_1")], []⟩
      sampleHeap sampleWorld).2 (by decide)⟩

/-- C2: for a valid name `createBucket` is called once, with that name; the
response is the 303 redirect to `/_api/buckets/` followed by the name exactly
when `createBucket` returns no error; when it returns one the response is
status 500, its body holds the name and the error, and nothing is
redirected. -/
theorem restPostBucket_create_outcome {W B V S : Type} (be : Backend W B V S) (p : Nat)
    (r : Request) (h : Heap) (w : W) (hn : validName (r.FormValue "name")) :
    (∃ settings,
      (restPostBucket be p r h w).1.calls = [.createBucket (r.FormValue "name") settings] ∧
      createError be p r h w = (be.createBucket (r.FormValue "name") settings w).1 ∧
      (restPostBucket be p r h w).1.world =
        (be.createBucket (r.FormValue "name") settings w).2) ∧
    ((restPostBucket be p r h w).1.written =
        [.httpRedirect ("/_api/buckets/" ++ r.FormValue "name") 303] ↔
      createError be p r h w = none) ∧
    (∀ e, createError be p r h w = some e →
      (restPostBucket be p r h w).1.status = 500 ∧
      (∃ body, (restPostBucket be p r h w).1.written = [.httpError body 500] ∧
        occursIn (r.FormValue "name") body ∧ occursIn e body) ∧
      ∀ url code, Written.httpRedirect url code ∉ (restPostBucket be p r h w).1.written) := by
  rw [restPostBucket_of_valid be p r h w hn]
  refine ⟨⟨_, rfl, rfl, rfl⟩, ?_, ?_⟩
  · cases hc : createError be p r h w <;> simp
  · intro e he
    refine ⟨?_, ⟨"create bucket error; name: " ++ r.FormValue "name" ++ ", err: " ++ e,
      ?_, ?_, ?_⟩, ?_⟩
    · simp [he, Outcome.status]
    · simp [he]
    · rw [String.append_assoc]
      exact occursIn_middle _ _ _
    · exact occursIn_end _ _
    · simp [he]

/-- C2 at a new name (redirected) and at a name already taken (status 500). -/
theorem restPostBucket_create_outcome_witness :
    validName "b1" ∧ validName "default" ∧
    (restPostBucket sampleBackend 0 ⟨[("name", "b1")], []⟩ sampleHeap sampleWorld).1.written
      = [.httpRedirect "/_api/buckets/b1" 303] ∧
    (restPostBucket sampleBackend 0 ⟨[("name", "default")], []⟩ sampleHeap
      sampleWorld).1.status = 500 :=
  ⟨by decide, by decide,
    (restPostBucket_create_outcome sampleBackend 0 ⟨[("name", "b1")], []⟩ sampleHeap sampleWorld
      (by decide)).2.1.2 (by decide),
    ((restPostBucket_create_outcome sampleBackend 0 ⟨[("name", "default")], []⟩ sampleHeap
      sampleWorld (by decide)).2.2 "bucket already exists" (by decide)).1⟩

/-- C3: for a valid create request the settings given to `createBucket` are the
process defaults with `QuotaBytes` and `MemoryOnly` replaced by the integers
the request supplies, where it supplies them, and `PasswordHash` by a
password that is not empty; the other field is the default one, and the
default settings, like every value allocated before the request, are left as
they were. -/
theorem restPostBucket_settings {W B V S : Type} (be : Backend W B V S) (p : Nat)
    (r : Request) (h : Heap) (w : W) (hn : validName (r.FormValue "name"))
    (hp : p < h.length) (hm : inInt64 (load h p).MemoryOnly) :
    ∃ settings,
      (restPostBucket be p r h w).1.calls = [.createBucket (r.FormValue "name") settings] ∧
      settings.QuotaBytes = (match parseInt64 (r.FormValue "quotaBytes") with
        | some q => q
        | none => (load h p).QuotaBytes) ∧
      settings.MemoryOnly = (match parseInt64 (r.FormValue "memoryOnly") with
        | some m => m
        | none => (load h p).MemoryOnly) ∧
      settings.PasswordHash = (if r.FormValue "password" ≠ "" then r.FormValue "password"
        else (load h p).PasswordHash) ∧
      settings.NumPartitions = (load h p).NumPartitions ∧
      load (restPostBucket be p r h w).2 p = load h p ∧
      ∀ q, q < h.length → load (restPostBucket be p r h w).2 q = load h q := by
  rw [restPostBucket_of_valid be p r h w hn, newBucketSettings_eq p r h hp]
  refine ⟨_, rfl, ?_, ?_, ?_, ?_, ?_, ?_⟩
  · simp only [load_append_new, postedSettings, getIntValue]
  · simp only [load_append_new, postedSettings, getIntValue, int, int64]
    rw [wrapSigned_of_inInt64 _ hm]
    cases hv : parseInt64 (r.FormValue "memoryOnly") with
    | none => exact wrapSigned_of_inInt64 _ hm
    | some v => exact wrapSigned_of_inInt64 _ (parseInt64_inInt64 _ _ hv)
  · simp only [load_append_new, postedSettings]
  · simp only [load_append_new, postedSettings]
  · exact load_append_left _ _ _ hp
  · intro q hq
    exact load_append_left _ _ _ hq

/-- C3 at a request for the bucket `b1` with `quotaBytes=1000000` and a
password, over the sample defaults. -/
theorem restPostBucket_settings_witness :
    validName "b1" ∧ 0 < sampleHeap.length ∧ inInt64 (load sampleHeap 0).MemoryOnly ∧
    ∃ settings,
      (restPostBucket sampleBackend 0
        ⟨[("name", "b1"), ("quotaBytes", "1000000"), ("password", "pw")], []⟩ sampleHeap
        sampleWorld).1.calls = [.createBucket "b1" settings] ∧
      settings.QuotaBytes = 1000000 ∧ settings.MemoryOnly = 0 ∧
      settings.PasswordHash = "pw" ∧ settings.NumPartitions = 1024 ∧
      load (restPostBucket sampleBackend 0
        ⟨[("name", "b1"), ("quotaBytes", "1000000"), ("password", "pw")], []⟩ sampleHeap
        sampleWorld).2 0 = load sampleHeap 0 :=
  have h := restPostBucket_settings sampleBackend 0
    ⟨[("name", "b1"), ("quotaBytes", "1000000"), ("password", "pw")], []⟩ sampleHeap
    sampleWorld (by decide) (by decide) (by decide)
  ⟨by decide, by decide, by decide, h.choose, h.choose_spec.1, h.choose_spec.2.1,
    h.choose_spec.2.2.1, h.choose_spec.2.2.2.1, h.choose_spec.2.2.2.2.1,
    h.choose_spec.2.2.2.2.2.1⟩

/-! ## The mutation logger -/

theorem registerCalls_append {H : Type} (a b : List (LogEffect H)) :
    registerCalls (a ++ b) = registerCalls a ++ registerCalls b := by
  induction a with
  | nil => rfl
  | cons e rest ih => cases e <;> simp [registerCalls, ih]

theorem mem_registerCalls {H : Type} (es : List (LogEffect H)) (hub : H) (c : Nat) :
    (hub, c) ∈ registerCalls es ↔ LogEffect.register hub c ∈ es := by
  induction es with
  | nil => simp [registerCalls]
  | cons e rest ih => cases e <;> simp [registerCalls, ih]

/-- The `Register` calls of one pass of the loop. -/
theorem mutationLoggerBody_registers {W V H : Type} (env : Hubs W V H) (ch : Nat) (i : Item)
    (w w1 : W) (es : List (LogEffect H)) (hb : mutationLoggerBody env ch i w = .ok (w1, es)) :
    (∀ hub c, (hub, c) ∈ registerCalls es →
      c = ch ∧ ∃ o vb, i = .bucketChange o ∧ o.newState = VBState.active ∧
        env.getVBucket o w = some vb ∧ hub = env.observer vb) := by
  intro hub c hmem
  cases i with
  | mutation m =>
    simp [mutationLoggerBody] at hb
    obtain ⟨-, rfl⟩ := hb
    simp [registerCalls] at hmem
  | bucketChange o =>
    unfold mutationLoggerBody at hb
    by_cases ha : o.newState = VBState.active
    · cases hv : env.getVBucket o w with
      | none =>
        simp [ha, hv] at hb
        obtain ⟨-, rfl⟩ := hb
        simp [registerCalls] at hmem
      | some vb =>
        simp [ha, hv] at hb
        obtain ⟨-, rfl⟩ := hb
        simp [registerCalls] at hmem
        obtain ⟨rfl, rfl⟩ := hmem
        exact ⟨rfl, o, vb, rfl, ha, hv, rfl⟩
    · simp [ha] at hb
      obtain ⟨-, rfl⟩ := hb
      simp [registerCalls] at hmem
  | other t x => simp [mutationLoggerBody] at hb

/-- Every `Register` call of a run is made with the channel of the logger, on
the hub of a partition found for a change to active among the items. -/
theorem mutationLogger_registers {W V H : Type} (env : Hubs W V H) (ch : Nat)
    (items : List Item) :
    ∀ (w : W) (hub : H) (c : Nat),
      (hub, c) ∈ registerCalls (mutationLogger env ch items w).effects →
      c = ch ∧ ∃ o vb w1, Item.bucketChange o ∈ items ∧ o.newState = VBState.active ∧
        env.getVBucket o w1 = some vb ∧ hub = env.observer vb := by
  induction items with
  | nil => intro w hub c h; simp [mutationLogger, registerCalls] at h
  | cons i rest ih =>
    intro w hub c h
    unfold mutationLogger at h
    cases hb : mutationLoggerBody env ch i w with
    | error msg => simp [hb, registerCalls] at h
    | ok res =>
      obtain ⟨w1, es⟩ := res
      simp only [hb, registerCalls_append, List.mem_append] at h
      rcases h with h | h
      · obtain ⟨hc, o, vb, hi, ha, hv, hh⟩ := mutationLoggerBody_registers env ch i w w1 es hb hub c h
        exact ⟨hc, o, vb, w, by simp [hi], ha, hv, hh⟩
      · obtain ⟨hc, o, vb, w2, hi, ha, hv, hh⟩ := ih w1 hub c h
        exact ⟨hc, o, vb, w2, by simp [hi], ha, hv, hh⟩

/-- A run over known items ends with the channel closed. -/
theorem mutationLogger_known {W V H : Type} (env : Hubs W V H) (ch : Nat) (items : List Item) :
    ∀ (w : W), (∀ i ∈ items, i.known = true) →
      (mutationLogger env ch items w).exit = Exit.closed := by
  induction items with
  | nil => intro w _; rfl
  | cons i rest ih =>
    intro w hk
    have hi := hk i (by simp)
    have hrest : ∀ j ∈ rest, j.known = true := fun j hj => hk j (by simp [hj])
    unfold mutationLogger
    cases i with
    | mutation m => simp [mutationLoggerBody, ih _ hrest]
    | bucketChange o =>
      unfold mutationLoggerBody
      by_cases ha : o.newState = VBState.active
      · cases hv : env.getVBucket o w <;> simp [ha, hv, ih _ hrest]
      · simp [ha, ih _ hrest]
    | other t x => simp [Item.known] at hi

/-- A run panics at the first item of another type: what follows it is not
read. -/
theorem mutationLogger_panics {W V H : Type} (env : Hubs W V H) (ch : Nat) (pre : List Item)
    (typeName text : String) (post : List Item) :
    ∀ (w : W), (∀ i ∈ pre, i.known = true) →
      (mutationLogger env ch (pre ++ .other typeName text :: post) w).exit
        = Exit.panic ("Unhandled item to log " ++ typeName ++ ": " ++ text) ∧
      (mutationLogger env ch (pre ++ .other typeName text :: post) w).effects
        = (mutationLogger env ch pre w).effects ∧
      (mutationLogger env ch (pre ++ .other typeName text :: post) w).world
        = (mutationLogger env ch pre w).world := by
  induction pre with
  | nil => intro w _; simp [mutationLogger, mutationLoggerBody]
  | cons i rest ih =>
    intro w hk
    have hi := hk i (by simp)
    have hrest : ∀ j ∈ rest, j.known = true := fun j hj => hk j (by simp [hj])
    simp only [List.cons_append]
    unfold mutationLogger
    cases hb : mutationLoggerBody env ch i w with
    | error msg =>
      cases i with
      | mutation m => simp [mutationLoggerBody] at hb
      | bucketChange o =>
        unfold mutationLoggerBody at hb
        by_cases ha : o.newState = VBState.active
        · cases hv : env.getVBucket o w <;> simp [ha, hv] at hb
        · simp [ha] at hb
      | other t x => simp [Item.known] at hi
    | ok res =>
      obtain ⟨w1, es⟩ := res
      obtain ⟨h1, h2, h3⟩ := ih w1 hrest
      simp [h1, h2, h3]

/-- C4: the logger registers its channel only while it handles a change to
active.  A mutation, and a change to any other state, leave the state as it
is and make no `Register` call; a change to active whose partition exists
makes one, on the hub of that partition with the channel of the logger; and
every `Register` call of a whole run is of that kind. -/
theorem mutationLogger_registers_on_active {W V H : Type} (env : Hubs W V H) (ch : Nat) :
    (∀ (m : mutation) (w : W), ∃ es,
      mutationLoggerBody env ch (.mutation m) w = .ok (w, es) ∧ registerCalls es = []) ∧
    (∀ (o : bucketChange) (w : W), o.newState ≠ VBState.active → ∃ es,
      mutationLoggerBody env ch (.bucketChange o) w = .ok (w, es) ∧ registerCalls es = []) ∧
    (∀ (o : bucketChange) (w : W) (vb : V), o.newState = VBState.active →
      env.getVBucket o w = some vb → ∃ es,
      mutationLoggerBody env ch (.bucketChange o) w
        = .ok (env.register (env.observer vb) ch w, es) ∧
      registerCalls es = [(env.observer vb, ch)]) ∧
    (∀ (o : bucketChange) (w : W), o.newState = VBState.active →
      env.getVBucket o w = none → ∃ es,
      mutationLoggerBody env ch (.bucketChange o) w = .ok (w, es) ∧ registerCalls es = []) ∧
    (∀ (items : List Item) (w : W) (hub : H) (c : Nat),
      (hub, c) ∈ registerCalls (mutationLogger env ch items w).effects →
      c = ch ∧ ∃ o vb w1, Item.bucketChange o ∈ items ∧ o.newState = VBState.active ∧
        env.getVBucket o w1 = some vb ∧ hub = env.observer vb) := by
  refine ⟨?_, ?_, ?_, ?_, ?_⟩
  · intro m w
    exact ⟨_, rfl, rfl⟩
  · intro o w ha
    exact ⟨[.printf "Bucket change: %v" (.bucketChange o)], by simp [mutationLoggerBody, ha], rfl⟩
  · intro o w vb ha hv
    exact ⟨[.printf "Bucket change: %v" (.bucketChange o), .register (env.observer vb) ch],
      by simp [mutationLoggerBody, ha, hv], rfl⟩
  · intro o w ha hv
    exact ⟨[.printf "Bucket change: %v" (.bucketChange o)],
      by simp [mutationLoggerBody, ha, hv], rfl⟩
  · intro items w hub c h
    exact mutationLogger_registers env ch items w hub c h

/-- C4 on a run of the sample hubs: of a mutation, a change to replica, a
change to active of the partition 1 and one of the missing partition 9, the
third alone registers the channel 7, on the hub 1. -/
theorem mutationLogger_registers_on_active_witness :
    registerCalls (mutationLogger sampleHubs 7
      [.mutation ⟨"k"⟩, .bucketChange ⟨"default", 1, .dead, .replica⟩,
        .bucketChange ⟨"default", 1, .replica, .active⟩,
        .bucketChange ⟨"default", 9, .dead, .active⟩] []).effects = [(1, 7)] ∧
    ∃ es, mutationLoggerBody sampleHubs 7 (.bucketChange ⟨"default", 1, .replica, .active⟩) []
        = .ok ([(1, 7)], es) ∧ registerCalls es = [(1, 7)] :=
  ⟨by decide,
    (mutationLogger_registers_on_active sampleHubs 7).2.2.1 ⟨"default", 1, .replica, .active⟩ []
      1 rfl (by decide)⟩

/-- C5: the logger takes the two event types as the only ones.  An item of
any other type makes the pass panic; a mutation and a bucket change do not;
a run over items of the two types ends when the channel is closed; and a run
that meets another item panics there, having done what it did for the items
before it and nothing for the items after it. -/
theorem mutationLogger_closed_union {W V H : Type} (env : Hubs W V H) (ch : Nat) :
    (∀ (typeName text : String) (w : W),
      mutationLoggerBody env ch (.other typeName text) w
        = .error ("Unhandled item to log " ++ typeName ++ ": " ++ text)) ∧
    (∀ (i : Item) (w : W), i.known = true →
      ∃ res, mutationLoggerBody env ch i w = .ok res) ∧
    (∀ (items : List Item) (w : W), (∀ i ∈ items, i.known = true) →
      (mutationLogger env ch items w).exit = Exit.closed) ∧
    (∀ (pre : List Item) (typeName text : String) (post : List Item) (w : W),
      (∀ i ∈ pre, i.known = true) →
      (mutationLogger env ch (pre ++ .other typeName text :: post) w).exit
        = Exit.panic ("Unhandled item to log " ++ typeName ++ ": " ++ text) ∧
      (mutationLogger env ch (pre ++ .other typeName text :: post) w).effects
        = (mutationLogger env ch pre w).effects ∧
      (mutationLogger env ch (pre ++ .other typeName text :: post) w).world
        = (mutationLogger env ch pre w).world) := by
  refine ⟨?_, ?_, ?_, ?_⟩
  · intro t x w; rfl
  · intro i w hi
    cases i with
    | mutation m => exact ⟨_, rfl⟩
    | bucketChange o =>
      unfold mutationLoggerBody
      by_cases ha : o.newState = VBState.active
      · cases hv : env.getVBucket o w <;> simp [ha, hv]
      · simp [ha]
    | other t x => simp [Item.known] at hi
  · intro items w hk
    exact mutationLogger_known env ch items w hk
  · intro pre t x post w hk
    exact mutationLogger_panics env ch pre t x post w hk

/-- C5 on a run of the sample hubs: an `int` between two mutations stops the
logger after the first. -/
theorem mutationLogger_closed_union_witness :
    (mutationLogger sampleHubs 7 ([.mutation ⟨"a"⟩] ++ .other "int" "3" :: [.mutation ⟨"b"⟩])
      []).exit = Exit.panic "Unhandled item to log int: 3" ∧
    (mutationLogger sampleHubs 7 ([.mutation ⟨"a"⟩] ++ .other "int" "3" :: [.mutation ⟨"b"⟩])
      []).effects = [.printf "Mutation: %v" (.mutation ⟨"a"⟩)] :=
  have h := (mutationLogger_closed_union sampleHubs 7).2.2.2 [.mutation ⟨"a"⟩] "int" "3"
    [.mutation ⟨"b"⟩] [] (by decide)
  ⟨h.1, h.2.1⟩

/-! ## Buckets by name -/

theorem parseBucketName_known {W B V S : Type} (be : Backend W B V S) (r : Request) (w : W)
    (b : B) (hb : be.get w (r.Var "bucketName") = some b) :
    parseBucketName be r w = (r.Var "bucketName", some b, []) := by
  simp [parseBucketName, hb]

theorem parseBucketName_unknown {W B V S : Type} (be : Backend W B V S) (r : Request) (w : W)
    (hb : be.get w (r.Var "bucketName") = none) :
    parseBucketName be r w = (r.Var "bucketName", none,
      [.httpError (be.unknownBucketText (r.Var "bucketName")) 404]) := by
  simp [parseBucketName, hb]

theorem since_gt_iff (now t : Int) : since now t > Second * 30 ↔ now - t > 30000000000 := by
  unfold since Second Millisecond maxDuration minDuration
  norm_num
  split_ifs <;> omega

/-- C6: for a known bucket `StartStats` is called exactly when the first
snapshot's latest update is more than 30 seconds before now.  Then it is
called once, with the interval of one second, the handler sleeps 2100 ms,
which is longer than that interval, and answers with the map of a second
snapshot taken after the sleep; otherwise it answers with the map of the first
snapshot and neither starts the sampler nor sleeps. -/
theorem restGetBucketStats_refreshes_when_stale {W B V S : Type} (be : Backend W B V S)
    (r : Request) (w : W) (b : B) (hb : be.get w (r.Var "bucketName") = some b) :
    ((∃ b1 i, Call.startStats b1 i ∈ (restGetBucketStats be r w).calls) ↔
      be.now w - be.latestUpdateTime (be.snapshotStats b w) > 30000000000) ∧
    (be.now w - be.latestUpdateTime (be.snapshotStats b w) > 30000000000 →
      (restGetBucketStats be r w).calls =
        [.snapshotStats b, .startStats b 1000000000, .sleep 2100000000, .snapshotStats b] ∧
      (restGetBucketStats be r w).world = be.sleep 2100000000 (be.startStats b 1000000000 w) ∧
      (restGetBucketStats be r w).written =
        [.jsonStats (be.toMap
          (be.snapshotStats b (be.sleep 2100000000 (be.startStats b 1000000000 w))))]) ∧
    (¬ be.now w - be.latestUpdateTime (be.snapshotStats b w) > 30000000000 →
      (restGetBucketStats be r w).calls = [.snapshotStats b] ∧
      (restGetBucketStats be r w).world = w ∧
      (restGetBucketStats be r w).written = [.jsonStats (be.toMap (be.snapshotStats b w))]) ∧
    (∀ b1 i d, Call.startStats b1 i ∈ (restGetBucketStats be r w).calls →
      Call.sleep d ∈ (restGetBucketStats be r w).calls → i < d) := by
  unfold restGetBucketStats
  rw [parseBucketName_known be r w b hb]
  by_cases hs : be.now w - be.latestUpdateTime (be.snapshotStats b w) > 30000000000
  · have hs1 := (since_gt_iff _ _).2 hs
    simp only [hs1, if_true]
    refine ⟨?_, ?_, ?_, ?_⟩
    · simp [hs]
    · intro _
      simp [Second, Millisecond]
    · intro hn
      exact absurd hs hn
    · intro b1 i d h1 h2
      simp [Second, Millisecond] at h1 h2
      omega
  · have hs1 : ¬ since (be.now w) (be.latestUpdateTime (be.snapshotStats b w)) > Second * 30 :=
      fun h => hs ((since_gt_iff _ _).1 h)
    simp only [hs1, if_false]
    refine ⟨?_, ?_, ?_, ?_⟩
    · simp [hs]
    · intro hn
      exact absurd hn hs
    · intro _
      simp
    · intro b1 i d h1
      simp at h1

/-- C6 on the sample process, its stats 40 seconds old: the sampler is
started and the second snapshot is the answer. -/
theorem restGetBucketStats_refreshes_when_stale_witness :
    sampleBackend.get sampleWorld "default" = some "default" ∧
    (restGetBucketStats sampleBackend ⟨[], [("bucketName", "default")]⟩ sampleWorld).calls =
      [.snapshotStats "default", .startStats "default" 1000000000, .sleep 2100000000,
        .snapshotStats "default"] ∧
    (restGetBucketStats sampleBackend ⟨[], [("bucketName", "default")]⟩ sampleWorld).written =
      [.jsonStats [("latestUpdateTime", "102100000000")]] :=
  have h := (restGetBucketStats_refreshes_when_stale sampleBackend
    ⟨[], [("bucketName", "default")]⟩ sampleWorld "default" (by decide)).2.1 (by decide)
  ⟨by decide, h.1, h.2.2⟩

/-- C7: `restDeleteBucket` calls `Close` exactly when the lookup finds the
bucket; then it calls it once, with the name of the bucket and flush set, and
for an unknown bucket it calls nothing and leaves the state as it was. -/
theorem restDeleteBucket_closes_known {W B V S : Type} (be : Backend W B V S) (r : Request)
    (w : W) :
    ((∃ n f, Call.close n f ∈ (restDeleteBucket be r w).calls) ↔
      (be.get w (r.Var "bucketName")).isSome = true) ∧
    ((be.get w (r.Var "bucketName")).isSome = true →
      (restDeleteBucket be r w).calls = [.close (r.Var "bucketName") true] ∧
      (restDeleteBucket be r w).world = (be.close (r.Var "bucketName") true w).2) ∧
    (be.get w (r.Var "bucketName") = none →
      (restDeleteBucket be r w).calls = [] ∧ (restDeleteBucket be r w).world = w) := by
  unfold restDeleteBucket
  cases hb : be.get w (r.Var "bucketName") with
  | none => rw [parseBucketName_unknown be r w hb]; simp
  | some b => rw [parseBucketName_known be r w b hb]; simp

/-- C7 on the sample process: deleting `default` closes it, deleting `nope`
closes nothing. -/
theorem restDeleteBucket_closes_known_witness :
    (restDeleteBucket sampleBackend ⟨[], [("bucketName", "default")]⟩ sampleWorld).calls
      = [.close "default" true] ∧
    (restDeleteBucket sampleBackend ⟨[], [("bucketName", "nope")]⟩ sampleWorld).calls = [] ∧
    (restDeleteBucket sampleBackend ⟨[], [("bucketName", "nope")]⟩ sampleWorld).world
      = sampleWorld :=
  have h := (restDeleteBucket_closes_known sampleBackend ⟨[], [("bucketName", "nope")]⟩
    sampleWorld).2.2 (by decide)
  ⟨((restDeleteBucket_closes_known sampleBackend ⟨[], [("bucketName", "default")]⟩
    sampleWorld).2.1 (by decide)).1, h.1, h.2⟩

/-- C8, the code against it: on the sample process closing `stuck` reports a
flush failure and closing `default` succeeds, yet `restDeleteBucket` answers
both requests alike, with status 200 and nothing written. -/
theorem restDeleteBucket_drops_close_error :
    (sampleBackend.close "stuck" true sampleWorld).1 = some "flush failed: disk full" ∧
    (sampleBackend.close "default" true sampleWorld).1 = none ∧
    (restDeleteBucket sampleBackend ⟨[], [("bucketName", "stuck")]⟩ sampleWorld).calls
      = [.close "stuck" true] ∧
    (restDeleteBucket sampleBackend ⟨[], [("bucketName", "stuck")]⟩ sampleWorld).written = [] ∧
    (restDeleteBucket sampleBackend ⟨[], [("bucketName", "stuck")]⟩ sampleWorld).status = 200 ∧
    (restDeleteBucket sampleBackend ⟨[], [("bucketName", "stuck")]⟩ sampleWorld).written
      = (restDeleteBucket sampleBackend ⟨[], [("bucketName", "default")]⟩ sampleWorld).written ∧
    (restPostBucketFlushDirty sampleBackend ⟨[], [("bucketName", "stuck")]⟩ sampleWorld).status
      = 500 := by
  decide

/-- Whatever `Close` returns, `restDeleteBucket` writes nothing for a known
bucket. -/
theorem restDeleteBucket_writes_nothing {W B V S : Type} (be : Backend W B V S) (r : Request)
    (w : W) (b : B) (hb : be.get w (r.Var "bucketName") = some b) :
    (restDeleteBucket be r w).written = [] ∧ (restDeleteBucket be r w).status = 200 := by
  unfold restDeleteBucket
  rw [parseBucketName_known be r w b hb]
  simp [Outcome.status]

theorem restPostBucketCompact_known {W B V S : Type} (be : Backend W B V S) (r : Request)
    (w : W) (b : B) (hb : be.get w (r.Var "bucketName") = some b) :
    restPostBucketCompact be r w =
      ⟨(be.compact b w).2,
        match (be.compact b w).1 with
        | some e => [.httpError
            ("error compacting bucket: " ++ r.Var "bucketName" ++ ", err: " ++ e) 500]
        | none => [],
        [.compact b]⟩ := by
  unfold restPostBucketCompact
  rw [parseBucketName_known be r w b hb]
  simp only []
  generalize be.compact b w = res
  obtain ⟨e, w1⟩ := res
  cases e <;> rfl

theorem restPostBucketFlushDirty_known {W B V S : Type} (be : Backend W B V S) (r : Request)
    (w : W) (b : B) (hb : be.get w (r.Var "bucketName") = some b) :
    restPostBucketFlushDirty be r w =
      ⟨(be.flush b w).2,
        match (be.flush b w).1 with
        | some e => [.httpError
            ("error flushing bucket: " ++ r.Var "bucketName" ++ ", err: " ++ e) 500]
        | none => [],
        [.flush b]⟩ := by
  unfold restPostBucketFlushDirty
  rw [parseBucketName_known be r w b hb]
  simp only []
  generalize be.flush b w = res
  obtain ⟨e, w1⟩ := res
  cases e <;> rfl

/-- C9: for a known bucket `restPostBucketCompact` answers with status 500
exactly when `Compact` returns an error, and `restPostBucketFlushDirty`
exactly when `Flush` does; the body then holds the name of the bucket and the
error, and without an error nothing is written.  Each handler calls its
operation once: the one call is on the bucket found, and the state the
handler leaves is the state that one run of the operation leaves.  For an
unknown bucket no operation is called, the state stays as it was and the
answer is the 404 of the lookup. -/
theorem compact_and_flush_report_errors {W B V S : Type} (be : Backend W B V S) (r : Request)
    (w : W) :
    (∀ b, be.get w (r.Var "bucketName") = some b →
      (((restPostBucketCompact be r w).status = 500 ↔ (be.compact b w).1 ≠ none) ∧
        (∀ e, (be.compact b w).1 = some e → ∃ body,
          (restPostBucketCompact be r w).written = [.httpError body 500] ∧
          occursIn (r.Var "bucketName") body ∧ occursIn e body) ∧
        ((be.compact b w).1 = none → (restPostBucketCompact be r w).written = []) ∧
        (restPostBucketCompact be r w).calls = [.compact b] ∧
        (restPostBucketCompact be r w).world = (be.compact b w).2) ∧
      (((restPostBucketFlushDirty be r w).status = 500 ↔ (be.flush b w).1 ≠ none) ∧
        (∀ e, (be.flush b w).1 = some e → ∃ body,
          (restPostBucketFlushDirty be r w).written = [.httpError body 500] ∧
          occursIn (r.Var "bucketName") body ∧ occursIn e body) ∧
        ((be.flush b w).1 = none → (restPostBucketFlushDirty be r w).written = []) ∧
        (restPostBucketFlushDirty be r w).calls = [.flush b] ∧
        (restPostBucketFlushDirty be r w).world = (be.flush b w).2)) ∧
    (be.get w (r.Var "bucketName") = none →
      ((restPostBucketCompact be r w).calls = [] ∧
        (restPostBucketCompact be r w).world = w ∧
        (restPostBucketCompact be r w).status = 404) ∧
      ((restPostBucketFlushDirty be r w).calls = [] ∧
        (restPostBucketFlushDirty be r w).world = w ∧
        (restPostBucketFlushDirty be r w).status = 404)) := by
  constructor
  · intro b hb
    rw [restPostBucketCompact_known be r w b hb, restPostBucketFlushDirty_known be r w b hb]
    constructor
    · cases hc : (be.compact b w).1 with
      | none => simp [Outcome.status]
      | some e =>
        refine ⟨by simp [Outcome.status], ?_, by simp, rfl, rfl⟩
        intro e1 he1
        simp only [Option.some.injEq] at he1
        subst he1
        refine ⟨"error compacting bucket: " ++ r.Var "bucketName" ++ ", err: " ++ e, rfl, ?_,
          occursIn_end _ _⟩
        rw [String.append_assoc]
        exact occursIn_middle _ _ _
    · cases hc : (be.flush b w).1 with
      | none => simp [Outcome.status]
      | some e =>
        refine ⟨by simp [Outcome.status], ?_, by simp, rfl, rfl⟩
        intro e1 he1
        simp only [Option.some.injEq] at he1
        subst he1
        refine ⟨"error flushing bucket: " ++ r.Var "bucketName" ++ ", err: " ++ e, rfl, ?_,
          occursIn_end _ _⟩
        rw [String.append_assoc]
        exact occursIn_middle _ _ _
  · intro hb
    unfold restPostBucketCompact restPostBucketFlushDirty
    rw [parseBucketName_unknown be r w hb]
    simp [Outcome.status]

/-- C9 on the journal process: compacting `stuck` fails with status 500 and
flushing `default` writes nothing, and each leaves the one entry of its
operation in the journal; on the unknown `nope` the journal stays empty. -/
theorem compact_and_flush_report_errors_witness :
    (restPostBucketCompact journalBackend ⟨[], [("bucketName", "stuck")]⟩ []).status = 500 ∧
    (restPostBucketCompact journalBackend ⟨[], [("bucketName", "stuck")]⟩ []).world
      = ["compact stuck"] ∧
    (restPostBucketFlushDirty journalBackend ⟨[], [("bucketName", "default")]⟩ []).written
      = [] ∧
    (restPostBucketFlushDirty journalBackend ⟨[], [("bucketName", "default")]⟩ []).world
      = ["flush default"] ∧
    (restPostBucketFlushDirty journalBackend ⟨[], [("bucketName", "nope")]⟩ []).world = [] :=
  have hs := ((compact_and_flush_report_errors journalBackend ⟨[], [("bucketName", "stuck")]⟩
    []).1 "stuck" (by decide)).1
  have hd := ((compact_and_flush_report_errors journalBackend ⟨[], [("bucketName", "default")]⟩
    []).1 "default" (by decide)).2
  have hn := ((compact_and_flush_report_errors journalBackend ⟨[], [("bucketName", "nope")]⟩
    []).2 (by decide)).2
  ⟨hs.1.2 (by decide), hs.2.2.2.2, hd.2.2.1 (by decide), hd.2.2.2.2, hn.2.1⟩

/-! ## Lemmas: decimal strings -/

theorem digit_toNat : ∀ a, a < 10 → (Char.ofNat ('0'.toNat + a)).toNat = 48 + a := by decide

theorem digit_inj (a b : Nat) (ha : a < 10) (hb : b < 10)
    (h : Char.ofNat ('0'.toNat + a) = Char.ofNat ('0'.toNat + b)) : a = b := by
  have h1 := congrArg Char.toNat h
  rw [digit_toNat a ha, digit_toNat b hb] at h1
  omega

theorem itoaDigits_length (fuel n : Nat) (acc : List Char) :
    acc.length < (itoaDigits (fuel + 1) n acc).length := by
  induction fuel generalizing n acc with
  | zero =>
    unfold itoaDigits
    split_ifs <;> simp [itoaDigits]
  | succ k ih =>
    unfold itoaDigits
    split_ifs
    · simp
    · have := ih (n / 10) (Char.ofNat ('0'.toNat + n % 10) :: acc)
      simp only [List.length_cons] at this
      show acc.length <
        (itoaDigits (k + 1) (n / 10) (Char.ofNat ('0'.toNat + n % 10) :: acc)).length
      omega

theorem itoaDigits_inj (n : Nat) :
    ∀ (m f1 f2 : Nat) (acc1 acc2 : List Char), n < f1 → m < f2 → acc1.length = acc2.length →
      itoaDigits f1 n acc1 = itoaDigits f2 m acc2 → n = m ∧ acc1 = acc2 := by
  induction n using Nat.strong_induction_on with
  | _ n ih =>
    intro m f1 f2 acc1 acc2 h1 h2 hl he
    obtain ⟨k1, rfl⟩ : ∃ k, f1 = k + 1 := ⟨f1 - 1, by omega⟩
    obtain ⟨k2, rfl⟩ : ∃ k, f2 = k + 1 := ⟨f2 - 1, by omega⟩
    unfold itoaDigits at he
    by_cases hn : n / 10 = 0
    · by_cases hm : m / 10 = 0
      · simp only [hn, hm, if_true] at he
        have hd := digit_inj (n % 10) (m % 10) (Nat.mod_lt _ (by norm_num))
          (Nat.mod_lt _ (by norm_num)) (List.cons.inj he).1
        exact ⟨by omega, (List.cons.inj he).2⟩
      · simp only [hn, hm, if_true, if_false] at he
        obtain ⟨k, rfl⟩ : ∃ k, k2 = k + 1 := ⟨k2 - 1, by omega⟩
        have hlen := itoaDigits_length k (m / 10) (Char.ofNat ('0'.toNat + m % 10) :: acc2)
        rw [← he] at hlen
        simp only [List.length_cons] at hlen
        omega
    · by_cases hm : m / 10 = 0
      · simp only [hn, hm, if_true, if_false] at he
        obtain ⟨k, rfl⟩ : ∃ k, k1 = k + 1 := ⟨k1 - 1, by omega⟩
        have hlen := itoaDigits_length k (n / 10) (Char.ofNat ('0'.toNat + n % 10) :: acc1)
        rw [he] at hlen
        simp only [List.length_cons] at hlen
        omega
      · simp only [hn, hm, if_false] at he
        have := ih (n / 10) (by omega) (m / 10) k1 k2 _ _ (by omega) (by omega)
          (by simp [hl]) he
        have hd := digit_inj (n % 10) (m % 10) (Nat.mod_lt _ (by norm_num))
          (Nat.mod_lt _ (by norm_num)) (List.cons.inj this.2).1
        exact ⟨by omega, (List.cons.inj this.2).2⟩

/-- Distinct ids have distinct decimal strings. -/
theorem itoa_injective (n m : Nat) (h : itoa n = itoa m) : n = m := by
  unfold itoa at h
  exact (itoaDigits_inj n m (n + 1) (m + 1) [] [] (by omega) (by omega) rfl
    (congrArg String.data h)).1

/-! ## Lemmas: the map -/

theorem mapGet_mapSet (m : PartMap) (k k1 : String) (v : VBMeta) :
    mapGet (mapSet m k v) k1 = if k = k1 then some v else mapGet m k1 := by
  induction m with
  | nil => simp [mapSet, mapGet]
  | cons e rest ih =>
    obtain ⟨k2, v2⟩ := e
    unfold mapSet
    by_cases h : k2 = k
    · subst h
      by_cases h1 : k2 = k1 <;> simp [mapGet, h1]
    · by_cases h1 : k2 = k1
      · subst h1
        have : ¬ k = k2 := fun e => h e.symm
        simp [mapGet, h, this]
      · simp [mapGet, h, h1, ih]

theorem length_mapSet (m : PartMap) (k : String) (v : VBMeta) :
    (mapSet m k v).length = if (mapGet m k).isSome then m.length else m.length + 1 := by
  induction m with
  | nil => simp [mapSet, mapGet]
  | cons e rest ih =>
    obtain ⟨k2, v2⟩ := e
    unfold mapSet
    by_cases h : k2 = k
    · simp [mapGet, h]
    · simp only [h, if_false, List.length_cons, ih, mapGet]
      split_ifs <;> rfl

theorem mem_keys_iff (m : PartMap) (k : String) :
    k ∈ m.map Prod.fst ↔ (mapGet m k).isSome = true := by
  induction m with
  | nil => simp [mapGet]
  | cons e rest ih =>
    obtain ⟨k2, v2⟩ := e
    by_cases h : k2 = k
    · simp [mapGet, h]
    · have : ¬ k = k2 := fun e => h e.symm
      simp [mapGet, h, this, ih]

theorem nodup_keys_mapSet (m : PartMap) (k : String) (v : VBMeta)
    (h : (m.map Prod.fst).Nodup) : ((mapSet m k v).map Prod.fst).Nodup := by
  induction m with
  | nil => simp [mapSet]
  | cons e rest ih =>
    obtain ⟨k2, v2⟩ := e
    simp only [List.map_cons, List.nodup_cons] at h
    unfold mapSet
    by_cases hk : k2 = k
    · subst hk
      simpa using h
    · simp only [hk, if_false, List.map_cons, List.nodup_cons]
      refine ⟨?_, ih h.2⟩
      rw [mem_keys_iff, mapGet_mapSet]
      have : ¬ k = k2 := fun e => hk e.symm
      simp only [this, if_false]
      rw [← mem_keys_iff]
      exact h.1

theorem mapOfMetas_snoc (ms : List VBMeta) (a : VBMeta) :
    mapOfMetas (ms ++ [a]) = mapSet (mapOfMetas ms) (itoa a.Id) a := by
  simp [mapOfMetas, List.foldl_append]

/-- An entry of the map is a metadata of the list under its own id. -/
theorem mapOfMetas_sound (ms : List VBMeta) :
    ∀ k m, mapGet (mapOfMetas ms) k = some m → k = itoa m.Id ∧ m ∈ ms := by
  induction ms using List.reverseRecOn with
  | nil => intro k m h; simp [mapOfMetas, mapGet] at h
  | append_singleton ms a ih =>
    intro k m h
    rw [mapOfMetas_snoc, mapGet_mapSet] at h
    by_cases hk : itoa a.Id = k
    · simp only [hk, if_true, Option.some.injEq] at h
      subst h
      exact ⟨hk.symm, by simp⟩
    · simp only [hk, if_false] at h
      obtain ⟨h1, h2⟩ := ih k m h
      exact ⟨h1, by simp [h2]⟩

/-- Every id of the list has an entry, of a metadata of the list with that
id. -/
theorem mapOfMetas_complete (ms : List VBMeta) :
    ∀ m ∈ ms, ∃ m1 ∈ ms, m1.Id = m.Id ∧ mapGet (mapOfMetas ms) (itoa m.Id) = some m1 := by
  induction ms using List.reverseRecOn with
  | nil => intro m h; simp at h
  | append_singleton ms a ih =>
    intro m hm
    rw [mapOfMetas_snoc, mapGet_mapSet]
    by_cases hk : itoa a.Id = itoa m.Id
    · exact ⟨a, by simp, itoa_injective _ _ hk, by simp [hk]⟩
    · simp only [hk, if_false]
      have hm1 : m ∈ ms := by
        rcases List.mem_append.1 hm with h | h
        · exact h
        · simp only [List.mem_singleton] at h
          subst h
          exact absurd rfl hk
      obtain ⟨m1, h1, h2, h3⟩ := ih m hm1
      exact ⟨m1, by simp [h1], h2, h3⟩

theorem nodup_keys_mapOfMetas (ms : List VBMeta) : ((mapOfMetas ms).map Prod.fst).Nodup := by
  induction ms using List.reverseRecOn with
  | nil => simp [mapOfMetas]
  | append_singleton ms a ih =>
    rw [mapOfMetas_snoc]
    exact nodup_keys_mapSet _ _ _ ih

/-- With distinct ids the map has one entry for each metadata of the list. -/
theorem mapOfMetas_distinct (ms : List VBMeta) (hd : (ms.map VBMeta.Id).Nodup) :
    (mapOfMetas ms).length = ms.length ∧
    ∀ m ∈ ms, mapGet (mapOfMetas ms) (itoa m.Id) = some m := by
  induction ms using List.reverseRecOn with
  | nil => simp [mapOfMetas]
  | append_singleton ms a ih =>
    rw [List.map_append, List.nodup_append] at hd
    obtain ⟨hd1, -, hd3⟩ := hd
    obtain ⟨ih1, ih2⟩ := ih hd1
    have hfresh : ∀ m ∈ ms, ¬ itoa a.Id = itoa m.Id := by
      intro m hm he
      have hid := itoa_injective _ _ he
      exact hd3 (List.mem_map_of_mem VBMeta.Id hm) (by simp [hid])
    have hnone : mapGet (mapOfMetas ms) (itoa a.Id) = none := by
      cases hg : mapGet (mapOfMetas ms) (itoa a.Id) with
      | none => rfl
      | some m1 =>
        obtain ⟨h1, h2⟩ := mapOfMetas_sound ms _ _ hg
        exact absurd h1 (hfresh m1 h2)
    rw [mapOfMetas_snoc]
    constructor
    · rw [length_mapSet, hnone]
      simp [ih1]
    · intro m hm
      rw [mapGet_mapSet]
      rcases List.mem_append.1 hm with h | h
      · simp only [hfresh m h, if_false]
        exact ih2 m h
      · simp only [List.mem_singleton] at h
        subst h
        simp

/-- The entry under a key is the metadata of the list entered last under
it. -/
theorem mapGet_mapOfMetas (ms : List VBMeta) (k : String) :
    mapGet (mapOfMetas ms) k = lastUnder ms k := by
  induction ms using List.reverseRecOn with
  | nil => simp [mapOfMetas, mapGet, lastUnder]
  | append_singleton ms a ih =>
    rw [mapOfMetas_snoc, mapGet_mapSet, ih]
    unfold lastUnder
    simp only [List.reverse_append, List.reverse_cons, List.reverse_nil, List.nil_append,
      List.singleton_append, List.find?_cons]
    by_cases hk : itoa a.Id = k <;> simp [hk]

/-- A key has an entry exactly when its id is an id of the list. -/
theorem isSome_mapGet_mapOfMetas (ms : List VBMeta) (n : Nat) :
    (mapGet (mapOfMetas ms) (itoa n)).isSome = true ↔ n ∈ ms.map VBMeta.Id := by
  constructor
  · intro h
    obtain ⟨m, hm⟩ := Option.isSome_iff_exists.1 h
    obtain ⟨h1, h2⟩ := mapOfMetas_sound ms _ _ hm
    rw [itoa_injective _ _ h1]
    exact List.mem_map_of_mem VBMeta.Id h2
  · intro h
    obtain ⟨m, hm, rfl⟩ := List.mem_map.1 h
    obtain ⟨m1, -, -, h3⟩ := mapOfMetas_complete ms m hm
    simp [h3]

/-- The map has as many entries as the list has different ids. -/
theorem length_mapOfMetas (ms : List VBMeta) : (mapOfMetas ms).length = distinctIds ms := by
  induction ms using List.reverseRecOn with
  | nil => simp [mapOfMetas, distinctIds]
  | append_singleton ms a ih =>
    rw [mapOfMetas_snoc, length_mapSet, ih]
    unfold distinctIds
    rw [List.map_append, List.toFinset_append]
    simp only [List.map_cons, List.map_nil, List.toFinset_cons, List.toFinset_nil,
      insert_emptyc_eq]
    by_cases hmem : a.Id ∈ ms.map VBMeta.Id
    · have hsome := (isSome_mapGet_mapOfMetas ms a.Id).2 hmem
      have hsub : ({a.Id} : Finset Nat) ⊆ (ms.map VBMeta.Id).toFinset := by
        simpa using hmem
      rw [if_pos hsome, Finset.union_eq_left.2 hsub]
    · have hnone : ¬ (mapGet (mapOfMetas ms) (itoa a.Id)).isSome = true :=
        fun h => hmem ((isSome_mapGet_mapOfMetas ms a.Id).1 h)
      have hdis : Disjoint (ms.map VBMeta.Id).toFinset ({a.Id} : Finset Nat) := by
        simpa using hmem
      rw [if_neg hnone, Finset.card_union_of_disjoint hdis, Finset.card_singleton]

/-! ## Lemmas: the partition scan -/

theorem scanOne_eq {W B V S : Type} (be : Backend W B V S) (b : B) (w : W) (vbid : Nat)
    (parts : PartMap) :
    scanOne be b w vbid parts =
      (metaOf be b w vbid).toList.foldl (fun m vbm => mapSet m (itoa vbm.Id) vbm) parts := by
  unfold scanOne metaOf
  cases be.getVBucket b vbid w with
  | none => rfl
  | some vb =>
    simp only [Option.bind]
    cases be.vbMeta vb w <;> rfl

/-- The loop ends: from a counter value up to a bound of at most 65535, with
more passes allowed than remain, it returns the map after the bodies of the
remaining ids, in order. -/
theorem scanLoop_eq {W B V S : Type} (be : Backend W B V S) (b : B) (w : W) (bound : Nat)
    (hbound : bound ≤ 65535) (fuel : Nat) :
    ∀ (vbid : Nat) (parts : PartMap), vbid ≤ bound → bound - vbid < fuel →
      scanLoop be b w bound fuel vbid parts =
        some ((List.range' vbid (bound - vbid)).foldl (fun m i => scanOne be b w i m) parts) := by
  induction fuel with
  | zero => intro vbid parts _ h; omega
  | succ k ih =>
    intro vbid parts hle hfuel
    unfold scanLoop
    by_cases hlt : vbid < bound
    · have hmod : (vbid + 1) % 65536 = vbid + 1 := Nat.mod_eq_of_lt (by omega)
      simp only [hlt, if_true, hmod]
      rw [ih (vbid + 1) _ (by omega) (by omega)]
      have : bound - vbid = (bound - (vbid + 1)) + 1 := by omega
      rw [this, List.range'_succ]
      rfl
    · have : bound - vbid = 0 := by omega
      simp [hlt, this]

theorem foldl_scanOne {W B V S : Type} (be : Backend W B V S) (b : B) (w : W) (l : List Nat) :
    ∀ parts : PartMap, l.foldl (fun m i => scanOne be b w i m) parts =
      (l.filterMap (metaOf be b w)).foldl (fun m vbm => mapSet m (itoa vbm.Id) vbm) parts := by
  induction l with
  | nil => intro parts; rfl
  | cons i rest ih =>
    intro parts
    rw [List.foldl_cons, ih, scanOne_eq]
    cases hm : metaOf be b w i with
    | none => simp [List.filterMap_cons, hm]
    | some vbm => simp [List.filterMap_cons, hm]

theorem uint16_small (n : Int) (h0 : 0 ≤ n) (h1 : n ≤ 1024) : uint16 n = n.toNat := by
  unfold uint16
  rw [Int.emod_eq_of_lt h0 (by omega)]

/-- The response of `restGetBucket` for a known bucket with up to 1024
partitions. -/
theorem restGetBucket_eq {W B V S : Type} (be : Backend W B V S) (r : Request) (w : W) (b : B)
    (hb : be.get w (r.Var "bucketName") = some b)
    (h0 : 0 ≤ (be.getBucketSettings b w).NumPartitions)
    (h1 : (be.getBucketSettings b w).NumPartitions ≤ 1024) :
    restGetBucket be r w = some ⟨w, [.jsonBucket
      { name := r.Var "bucketName", itemBytes := be.getItemBytes b w,
        settings := (be.getBucketSettings b w).SafeView,
        partitions :=
          mapOfMetas (reportedMetas be b w (be.getBucketSettings b w).NumPartitions.toNat) }],
      []⟩ := by
  unfold restGetBucket
  rw [parseBucketName_known be r w b hb]
  simp only []
  rw [uint16_small _ h0 h1]
  rw [scanLoop_eq be b w _ (by omega) 65537 0 [] (by omega) (by omega)]
  simp only [Nat.sub_zero, ← List.range_eq_range', foldl_scanOne]
  have hd : ∀ parts : PartMap,
      (match be.getDDocVBucket b w with
        | some vb =>
          match be.vbMeta vb w with
          | some vbm => mapSet parts (itoa vbm.Id) vbm
          | none => parts
        | none => parts) =
      (((be.getDDocVBucket b w).bind (be.vbMeta · w)).toList).foldl
        (fun m vbm => mapSet m (itoa vbm.Id) vbm) parts := by
    intro parts
    cases be.getDDocVBucket b w with
    | none => rfl
    | some vb =>
      simp only [Option.bind]
      cases be.vbMeta vb w <;> rfl
  rw [hd]
  simp only [mapOfMetas, reportedMetas, List.foldl_append]

/-- C10, as the code has it: for a known bucket whose settings give between 0
and 1024 partitions the scan of `restGetBucket` ends and the handler answers,
leaving the state as it was, with the name, the item bytes, the redacted view
of the settings and a map of partitions.  The reported partitions are those
among the ids below the number of partitions that exist and have metadata,
in ascending order, and then the design-document partition when it exists and
has metadata.  The map has exactly one entry for each different metadata id
among them, under the decimal string of that id, and the entry is the
metadata entered last under it; so every entry is the metadata of a reported
partition under its own id, every reported partition finds an entry under
its id, and when the ids of the reported metadata differ from one another
there is exactly one entry for each reported partition. -/
theorem restGetBucket_reports_partitions {W B V S : Type} (be : Backend W B V S) (r : Request)
    (w : W) (b : B) (hb : be.get w (r.Var "bucketName") = some b)
    (h0 : 0 ≤ (be.getBucketSettings b w).NumPartitions)
    (h1 : (be.getBucketSettings b w).NumPartitions ≤ 1024) :
    ∃ parts,
      restGetBucket be r w = some ⟨w, [.jsonBucket
        { name := r.Var "bucketName", itemBytes := be.getItemBytes b w,
          settings := (be.getBucketSettings b w).SafeView, partitions := parts }], []⟩ ∧
      (∀ k, mapGet parts k =
        lastUnder (reportedMetas be b w (be.getBucketSettings b w).NumPartitions.toNat) k) ∧
      parts.length =
        distinctIds (reportedMetas be b w (be.getBucketSettings b w).NumPartitions.toNat) ∧
      (parts.map Prod.fst).Nodup ∧
      (∀ k m, mapGet parts k = some m →
        k = itoa m.Id ∧
        m ∈ reportedMetas be b w (be.getBucketSettings b w).NumPartitions.toNat) ∧
      (∀ m ∈ reportedMetas be b w (be.getBucketSettings b w).NumPartitions.toNat,
        ∃ m1 ∈ reportedMetas be b w (be.getBucketSettings b w).NumPartitions.toNat,
          m1.Id = m.Id ∧ mapGet parts (itoa m.Id) = some m1) ∧
      (((reportedMetas be b w (be.getBucketSettings b w).NumPartitions.toNat).map
          VBMeta.Id).Nodup →
        parts.length =
          (reportedMetas be b w (be.getBucketSettings b w).NumPartitions.toNat).length ∧
        ∀ m ∈ reportedMetas be b w (be.getBucketSettings b w).NumPartitions.toNat,
          mapGet parts (itoa m.Id) = some m) :=
  ⟨_, restGetBucket_eq be r w b hb h0 h1, mapGet_mapOfMetas _, length_mapOfMetas _,
    nodup_keys_mapOfMetas _, mapOfMetas_sound _, mapOfMetas_complete _,
    mapOfMetas_distinct _⟩

/-- C10 as amended, on the process whose design-document partition has the
metadata id 0: of the four ids of `default` the partitions 0 and 2 exist, and
the map has two entries, the metadata of the design-document partition under
`0` and that of the partition 2 under `2`. -/
theorem restGetBucket_reports_partitions_witness :
    collidingBackend.get sampleWorld "default" = some "default" ∧
    (0 : Int) ≤ 4 ∧ (4 : Int) ≤ 1024 ∧
    ∃ parts,
      restGetBucket collidingBackend ⟨[], [("bucketName", "default")]⟩ sampleWorld =
        some ⟨sampleWorld, [.jsonBucket
          { name := "default", itemBytes := 0,
            settings := { QuotaBytes := 1000000, MemoryOnly := 0, NumPartitions := 4 },
            partitions := parts }], []⟩ ∧
      parts.length = 2 ∧
      mapGet parts "0" = some { Id := 0, Rest := "ddoc" } ∧
      mapGet parts "2" = some { Id := 2, Rest := "" } :=
  have h := restGetBucket_reports_partitions collidingBackend
    ⟨[], [("bucketName", "default")]⟩ sampleWorld "default" (by decide) (by decide) (by decide)
  ⟨by decide, by decide, by decide,
    h.choose, h.choose_spec.1, h.choose_spec.2.2.1.trans (by decide),
    (h.choose_spec.2.1 "0").trans (by decide), (h.choose_spec.2.1 "2").trans (by decide)⟩

/-- C10 as first stated fails: on the process whose design-document partition
has the metadata id 0 the bucket `default`, with 4 as its number of
partitions, has three reported partitions (0, 2 and the design-document one),
the map of the answer has two entries, and the metadata of the partition 0 is
not among them; so no map with one entry for each reported partition is
answered. -/
theorem restGetBucket_colliding_ids :
    collidingBackend.get sampleWorld "default" = some "default" ∧
    (collidingBackend.getBucketSettings "default" sampleWorld).NumPartitions = 4 ∧
    metaOf collidingBackend "default" sampleWorld 0 = some { Id := 0, Rest := "" } ∧
    reportedMetas collidingBackend "default" sampleWorld 4 =
      [{ Id := 0, Rest := "" }, { Id := 2, Rest := "" }, { Id := 0, Rest := "ddoc" }] ∧
    (restGetBucket collidingBackend ⟨[], [("bucketName", "default")]⟩ sampleWorld).map
        (fun o => o.written) =
      some [.jsonBucket
        { name := "default", itemBytes := 0,
          settings := { QuotaBytes := 1000000, MemoryOnly := 0, NumPartitions := 4 },
          partitions := [("0", { Id := 0, Rest := "ddoc" }), ("2", { Id := 2, Rest := "" })] }] ∧
    ¬ ∃ parts : PartMap,
      (restGetBucket collidingBackend ⟨[], [("bucketName", "default")]⟩ sampleWorld).map
          (fun o => o.written) =
        some [.jsonBucket
          { name := "default", itemBytes := 0,
            settings := { QuotaBytes := 1000000, MemoryOnly := 0, NumPartitions := 4 },
            partitions := parts }] ∧
      parts.length = (reportedMetas collidingBackend "default" sampleWorld 4).length := by
  have hw : (restGetBucket collidingBackend ⟨[], [("bucketName", "default")]⟩ sampleWorld).map
        (fun o => o.written) =
      some [.jsonBucket
        { name := "default", itemBytes := 0,
          settings := { QuotaBytes := 1000000, MemoryOnly := 0, NumPartitions := 4 },
          partitions := [("0", { Id := 0, Rest := "ddoc" }), ("2", { Id := 2, Rest := "" })] }] := by
    decide
  have hr : reportedMetas collidingBackend "default" sampleWorld 4 =
      [{ Id := 0, Rest := "" }, { Id := 2, Rest := "" }, { Id := 0, Rest := "ddoc" }] := by
    decide
  refine ⟨by decide, by decide, by decide, hr, hw, ?_⟩
  rintro ⟨parts, hp, hl⟩
  rw [hw] at hp
  simp only [Option.some.injEq, List.cons.injEq, Written.jsonBucket.injEq,
    BucketDetail.mk.injEq, and_true, true_and] at hp
  rw [hr, ← hp] at hl
  simp at hl

end Cbgb
